import Mathlib

/-
Verification of the Open Graph meta-tag rewriting middleware (src/middleware.js).

The middleware matches the request URL against the regular expressions
/\/users\/([^/?]+)/ and /\/concepts\/([^/?]+)/, derives page metadata
(image URL, title, description) for the matched user or concept, optionally
fetches concept metadata from a backend service, rewrites seven meta tags in a
static HTML template via the replaceMetaTag utility, and serves the result as
an HTTP 200 text/html response.  When neither pattern matches it logs an error
and passes the request down the handler chain.

The replaceMetaTag utility (app/utils/replace-meta-tag) and the static template
(dist/_empty.html) are imported by the middleware but are not part of the
repository slice; they are modelled from the specification, as marked on their
definitions.
-/

set_option autoImplicit false

namespace MetaTagRewriter

/-- Greedy capture of the regex character class excluding slash and question mark:
the `[^/?]+` part of both route patterns takes the maximal run of characters that
are neither a slash nor a question mark. -/
def segmentTake : List Char → List Char
  | [] => []
  | c :: cs => if c == '/' || c == '?' then [] else c :: segmentTake cs

/-- Attempt the literal pattern followed by a nonempty segment at the head of the
text; on success return the captured segment (regex capture group 1). -/
def matchHere (pat s : List Char) : Option (List Char) :=
  if s.take pat.length == pat then
    let seg := segmentTake (s.drop pat.length)
    if seg.isEmpty then none else some seg
  else none

/-- First-match semantics of JavaScript `url.match` with a non-global regex: start
positions are tried left to right, and the first position where the literal pattern
is followed by at least one segment character wins. -/
def scanMatch (pat : List Char) : List Char → Option (List Char)
  | [] => none
  | c :: cs =>
    match matchHere pat (c :: cs) with
    | some seg => some seg
    | none => scanMatch pat cs

/-- Capture group 1 of `url.match` for a regex made of a literal pattern followed
by `([^/?]+)`, as the middleware uses for both routes. -/
def matchCapture (pat url : String) : Option String :=
  (scanMatch pat.toList url.toList).map fun cs => String.mk cs

/-- The literal part of the users route regex. -/
def usersPathPattern : String := "/users/"

/-- The literal part of the concepts route regex. -/
def conceptsPathPattern : String := "/concepts/"

/-- One word of the concept slug, transformed as in the middleware:
`word.charAt(0).toUpperCase() + word.slice(1).toLowerCase()`. -/
def capitalizeWord (word : String) : String :=
  match word.toList with
  | [] => ""
  | c :: cs => String.mk (c.toUpper :: cs.map Char.toLower)

/-- JavaScript `conceptSlug.split(hyphen)` over the character list: a leading,
trailing or doubled hyphen yields an empty word, and the empty slug yields one
empty word, as `String.prototype.split` does. -/
def splitOnHyphen : List Char → List (List Char)
  | [] => [[]]
  | c :: cs =>
    if c == '-' then [] :: splitOnHyphen cs
    else
      match splitOnHyphen cs with
      | [] => [[c]]
      | w :: ws => (c :: w) :: ws

/-- The slug-to-title fallback derivation of the middleware:
`conceptSlug.split(hyphen).map(capitalize).join(space)`. -/
def slugToTitle (conceptSlug : String) : String :=
  String.intercalate " "
    ((splitOnHyphen conceptSlug.toList).map fun w => capitalizeWord (String.mk w))

/-- The slug-derived fallback description of the middleware. -/
def conceptFallbackDescription (conceptSlug : String) : String :=
  "View the " ++ slugToTitle conceptSlug ++ " concept on CodeCrafters"

/-- The OG image URL generated for a concept. -/
def conceptImageUrl (conceptSlug : String) : String :=
  "https://og.codecrafters.io/api/concept/" ++ conceptSlug

/-- The OG image URL generated for a user profile. -/
def userProfileImageUrl (username : String) : String :=
  "https://og.codecrafters.io/api/user_profile/" ++ username

/-- The JSON object returned by the concept-data service.  Either field may be
absent: an absent field models the JavaScript `undefined` that reading a missing
property of a plain object yields. -/
structure ConceptData where
  title : Option String
  description_markdown : Option String
  deriving DecidableEq

/-- The request-scoped page metadata triple.  The image URL is always assigned a
string; title and description are `none` exactly when the middleware ends up with
the JavaScript `undefined` value in the corresponding variable. -/
structure PageMeta where
  pageImageUrl : String
  pageTitle : Option String
  pageDescription : Option String
  deriving DecidableEq

/-- A node of the HTML document: either a run of markup text that the rewriter
never touches, or a meta tag given by its attribute list (attribute order is
significant, as in the serialized document). -/
inductive Node where
  | text (s : String)
  | meta (attrs : List (String × String))
  deriving DecidableEq

/-- The value of the first attribute with the given name, if any. -/
def getAttr : List (String × String) → String → Option String
  | [], _ => none
  | p :: ps, key => if p.1 == key then some p.2 else getAttr ps key

/-- Replace the value of every attribute with the given name, keeping attribute
order; attributes with other names are untouched. -/
def setAttr : List (String × String) → String → String → List (String × String)
  | [], _, _ => []
  | p :: ps, key, value =>
    (if p.1 == key then (key, value) else p) :: setAttr ps key value

/-- Whether a node is a meta tag carrying the given attribute name and value pair,
wherever the attribute stands in the tag. -/
def Node.matchesSelector : Node → String → String → Bool
  | .text _, _, _ => false
  | .meta attrs, attrName, attrValue => getAttr attrs attrName == some attrValue

/-- Replace the value of the `content` attribute of a meta tag; text nodes are
unchanged. -/
def Node.setContent : Node → String → Node
  | .text s, _ => .text s
  | .meta attrs, content => .meta (setAttr attrs "content" content)

/-- Modelled from the spec: the `replaceMetaTag` utility, imported by the
middleware from app/utils/replace-meta-tag, a file that is not part of the
repository slice.  Per the specification it locates a meta tag matching the given
attribute name and value pair — handling attributes in either order — and
replaces the value of its `content` attribute with the supplied string, leaving
all other document content untouched. -/
def replaceMetaTag : List Node → String → String → String → List Node
  | [], _, _, _ => []
  | n :: ns, attrName, attrValue, content =>
    if n.matchesSelector attrName attrValue then n.setContent content :: ns
    else n :: replaceMetaTag ns attrName attrValue content

/-- The `content` attribute value of the first meta tag matching the given
attribute name and value pair. -/
def firstContent : List Node → String → String → Option String
  | [], _, _ => none
  | n :: ns, attrName, attrValue =>
    if n.matchesSelector attrName attrValue then
      match n with
      | .text _ => none
      | .meta attrs => getAttr attrs "content"
    else firstContent ns attrName attrValue

/-- Serialize an attribute list: each attribute as a space, the name, an equals
sign and the double-quoted value. -/
def renderAttrs : List (String × String) → String
  | [] => ""
  | p :: rest => " " ++ p.1 ++ "=\"" ++ p.2 ++ "\"" ++ renderAttrs rest

/-- Serialize one node back to document text. -/
def renderNode : Node → String
  | .text s => s
  | .meta attrs => "<meta" ++ renderAttrs attrs ++ ">"

/-- Serialize the document back to text. -/
def render (doc : List Node) : String :=
  String.join (doc.map renderNode)

/-- JavaScript string conversion of a possibly undefined value, applied when the
value is written into document text: `undefined` prints as "undefined". -/
def contentString : Option String → String
  | some s => s
  | none => "undefined"

/-- The ordered argument list the middleware reduces over: the seven targeted
meta tags and the derived values written into them (src/middleware.js lines
95 to 103). -/
def metaTagArgs (m : PageMeta) : List (String × String × String) :=
  [("name", "description", contentString m.pageDescription),
   ("property", "og:title", contentString m.pageTitle),
   ("property", "og:description", contentString m.pageDescription),
   ("property", "og:image", m.pageImageUrl),
   ("name", "twitter:title", contentString m.pageTitle),
   ("name", "twitter:description", contentString m.pageDescription),
   ("name", "twitter:image", m.pageImageUrl)]

/-- The sequential substitution of the middleware: a fold of `replaceMetaTag`
over the seven argument triples, starting from the template text. -/
def applyMetaTags (indexFileText : List Node) (m : PageMeta) : List Node :=
  (metaTagArgs m).foldl (fun text args => replaceMetaTag text args.1 args.2.1 args.2.2)
    indexFileText

/-- Modelled from the spec: the pre-built empty HTML shell dist/_empty.html, a
static asset that is not part of the repository slice.  Per the specification it
contains one meta tag for each of the seven targeted attribute name and value
pairs (with `name`/`content` in either order), alongside unrelated markup — here
a charset tag, a viewport tag and surrounding text — that the rewriter must not
touch. -/
def emptyHtmlTemplate : List Node :=
  [.text "<!DOCTYPE html><html><head><title>CodeCrafters</title>",
   .meta [("charset", "utf-8")],
   .meta [("name", "description"), ("content", "")],
   .meta [("property", "og:title"), ("content", "")],
   .meta [("content", ""), ("property", "og:description")],
   .meta [("property", "og:image"), ("content", "")],
   .meta [("name", "twitter:title"), ("content", "")],
   .meta [("content", ""), ("name", "twitter:description")],
   .meta [("name", "twitter:image"), ("content", "")],
   .meta [("name", "viewport"), ("content", "width=device-width")],
   .text "</head><body></body></html>"]

/-- Console output levels: `console.error` and `console.log`. -/
inductive LogLevel where
  | error
  | info
  deriving DecidableEq

/-- What the middleware hands back to the edge runtime: either `next(request)`
(pass the original request down the stack) or a constructed `Response` with a
status, a Content-Type header and a body. -/
inductive MiddlewareResult where
  | passThrough (url : String)
  | response (status : Nat) (contentType : String) (body : String)
  deriving DecidableEq

/-- Whether the middleware rewrote the request (produced its own response) rather
than passing it through. -/
def isRewrite : MiddlewareResult → Bool
  | .passThrough _ => false
  | .response _ _ _ => true

/-- The page metadata derived for a user route (src/middleware.js lines 45 to 51). -/
def userPageMeta (username : String) : PageMeta :=
  { pageImageUrl := userProfileImageUrl username,
    pageTitle := some (username ++ "'s CodeCrafters Profile"),
    pageDescription := some ("View " ++ username ++ "'s profile on CodeCrafters") }

/-- The slug-derived fallback metadata for a concept route (src/middleware.js
lines 57 to 63 and 81 to 83), used when the fetch or parse throws. -/
def conceptFallbackMeta (conceptSlug : String) : PageMeta :=
  { pageImageUrl := conceptImageUrl conceptSlug,
    pageTitle := some (slugToTitle conceptSlug),
    pageDescription := some (conceptFallbackDescription conceptSlug) }

/-- The page metadata a concept route ends up with, as a function of the fetch
outcome (src/middleware.js lines 57 to 83): the try block overwrites the
slug-derived fallbacks with the fetched object's fields — present or not —
while the catch block retains the fallbacks. -/
def conceptPageMeta (conceptSlug : String) (fetched : Except String ConceptData) : PageMeta :=
  match fetched with
  | .ok conceptData =>
    { pageImageUrl := conceptImageUrl conceptSlug,
      pageTitle := conceptData.title,
      pageDescription := conceptData.description_markdown }
  | .error _ => conceptFallbackMeta conceptSlug

/-- The console output of the concept branch: nothing on success; the caught
error and the `console.log` notice on failure. -/
def conceptLogs : Except String ConceptData → List (LogLevel × String)
  | .ok _ => []
  | .error e => [(.error, e), (.info, "ignoring error for now")]

/-- The metadata-derivation stage of the middleware (src/middleware.js lines 29
to 84): `none` when neither regex matches the URL; otherwise the page metadata,
with the users branch taking precedence.  The fetch of concept data is passed in
as a function from the slug to either the parsed JSON object or the thrown
error's message. -/
def derivePageMeta (url : String) (fetchConceptData : String → Except String ConceptData) :
    Option PageMeta :=
  match matchCapture usersPathPattern url, matchCapture conceptsPathPattern url with
  | none, none => none
  | some username, _ => some (userPageMeta username)
  | none, some conceptSlug => some (conceptPageMeta conceptSlug (fetchConceptData conceptSlug))

/-- Serve the substituted template as HTML (src/middleware.js line 106): a
`Response` whose status is the constructor default 200, with a text/html
Content-Type header. -/
def serveHtml (indexFileText : List Node) (m : PageMeta) : MiddlewareResult :=
  .response 200 "text/html" (render (applyMetaTags indexFileText m))

/-- The log line of the no-match branch: `console.error` with the message and the
URL as its two arguments. -/
def unparseableLog (url : String) : LogLevel × String :=
  (.error, "Unable to parse username or concept slug from the URL: " ++ url)

/-- The edge middleware of src/middleware.js, as a function of the request URL,
the concept-data fetch outcome and the template text (the read of dist/_empty.html
always yields the asset; a failed read is unhandled in the source and outside
this model).  Returns the result handed to the runtime together with the console
output, in order. -/
def middleware (url : String) (fetchConceptData : String → Except String ConceptData)
    (indexFileText : List Node) : MiddlewareResult × List (LogLevel × String) :=
  match matchCapture usersPathPattern url, matchCapture conceptsPathPattern url with
  | none, none => (.passThrough url, [unparseableLog url])
  | some username, _ => (serveHtml indexFileText (userPageMeta username), [])
  | none, some conceptSlug =>
    (serveHtml indexFileText (conceptPageMeta conceptSlug (fetchConceptData conceptSlug)),
     conceptLogs (fetchConceptData conceptSlug))

/-- The characters of a URL that precede its query string. -/
def takeUntilQuestionMark : List Char → List Char
  | [] => []
  | c :: cs => if c == '?' then [] else c :: takeUntilQuestionMark cs

/-- The URL with its query string removed: two URLs equal under this map share
scheme, host and path, and can differ only in the query string. -/
def queryStripped (url : String) : String :=
  String.mk (takeUntilQuestionMark url.toList)

/-- A fetch that always throws, for instantiating routes that never reach the
fetch or exercise its failure path. -/
def noFetch : String → Except String ConceptData :=
  fun _ => .error "network error"

end MetaTagRewriter
namespace MetaTagRewriter

theorem getAttr_setAttr_ne (attrs : List (String × String)) (key value a : String)
    (h : a ≠ key) : getAttr (setAttr attrs key value) a = getAttr attrs a := by
  induction attrs with
  | nil => rfl
  | cons p ps ih =>
    by_cases hp : p.1 = key <;>
      simp [setAttr, getAttr, hp, Ne.symm h, ih]

theorem setAttr_setAttr (attrs : List (String × String)) (key value : String) :
    setAttr (setAttr attrs key value) key value = setAttr attrs key value := by
  induction attrs with
  | nil => rfl
  | cons p ps ih =>
    by_cases hp : p.1 = key <;> simp [setAttr, hp, ih]

theorem matchesSelector_setContent (n : Node) (content attrName attrValue : String)
    (h : attrName ≠ "content") :
    (n.setContent content).matchesSelector attrName attrValue =
      n.matchesSelector attrName attrValue := by
  cases n with
  | text s => rfl
  | meta attrs =>
    simp only [Node.setContent, Node.matchesSelector]
    rw [getAttr_setAttr_ne attrs "content" content attrName h]

theorem setContent_setContent (n : Node) (content : String) :
    (n.setContent content).setContent content = n.setContent content := by
  cases n with
  | text s => rfl
  | meta attrs => simp [Node.setContent, setAttr_setAttr]

theorem derivePageMeta_users (url username : String)
    (f : String → Except String ConceptData)
    (hu : matchCapture usersPathPattern url = some username) :
    derivePageMeta url f = some (userPageMeta username) := by
  unfold derivePageMeta
  rw [hu]

theorem derivePageMeta_concept (url conceptSlug : String)
    (f : String → Except String ConceptData)
    (hu : matchCapture usersPathPattern url = none)
    (hc : matchCapture conceptsPathPattern url = some conceptSlug) :
    derivePageMeta url f = some (conceptPageMeta conceptSlug (f conceptSlug)) := by
  unfold derivePageMeta
  rw [hu, hc]

theorem derivePageMeta_unmatched (url : String)
    (f : String → Except String ConceptData)
    (hu : matchCapture usersPathPattern url = none)
    (hc : matchCapture conceptsPathPattern url = none) :
    derivePageMeta url f = none := by
  unfold derivePageMeta
  rw [hu, hc]

theorem middleware_users (url username : String)
    (f : String → Except String ConceptData) (tpl : List Node)
    (hu : matchCapture usersPathPattern url = some username) :
    middleware url f tpl = (serveHtml tpl (userPageMeta username), []) := by
  unfold middleware
  rw [hu]

theorem middleware_concept (url conceptSlug : String)
    (f : String → Except String ConceptData) (tpl : List Node)
    (hu : matchCapture usersPathPattern url = none)
    (hc : matchCapture conceptsPathPattern url = some conceptSlug) :
    middleware url f tpl =
      (serveHtml tpl (conceptPageMeta conceptSlug (f conceptSlug)),
       conceptLogs (f conceptSlug)) := by
  unfold middleware
  rw [hu, hc]

theorem middleware_unmatched (url : String)
    (f : String → Except String ConceptData) (tpl : List Node)
    (hu : matchCapture usersPathPattern url = none)
    (hc : matchCapture conceptsPathPattern url = none) :
    middleware url f tpl = (.passThrough url, [unparseableLog url]) := by
  unfold middleware
  rw [hu, hc]

/-- C1 fails as stated: at the URL /users/alice the derived title is
"alice's CodeCrafters Profile", not "alice's Profile", and the derived
description is "View alice's profile on CodeCrafters", not "View alice's profile". -/
theorem usersTitleClaimFails :
    derivePageMeta "https://codecrafters.io/users/alice" noFetch = some (userPageMeta "alice") ∧
    (userPageMeta "alice").pageTitle = some "alice's CodeCrafters Profile" ∧
    (userPageMeta "alice").pageTitle ≠ some "alice's Profile" ∧
    (userPageMeta "alice").pageDescription = some "View alice's profile on CodeCrafters" ∧
    (userPageMeta "alice").pageDescription ≠ some "View alice's profile" :=
  ⟨rfl, rfl, by decide, rfl, by decide⟩

/-- C1 (amended): for every request URL matching the users pattern, the derived
page metadata has title "{username}'s CodeCrafters Profile", description
"View {username}'s profile on CodeCrafters", and an image URL that is the fixed
OG-service prefix followed by the username, hence contains the username. -/
theorem usersRouteMetadata (url username : String) (f : String → Except String ConceptData)
    (h : matchCapture usersPathPattern url = some username) :
    derivePageMeta url f = some (userPageMeta username) ∧
    (userPageMeta username).pageTitle = some (username ++ "'s CodeCrafters Profile") ∧
    (userPageMeta username).pageDescription =
      some ("View " ++ username ++ "'s profile on CodeCrafters") ∧
    ∃ a b : String, (userPageMeta username).pageImageUrl = a ++ username ++ b := by
  refine ⟨derivePageMeta_users url username f h, rfl, rfl,
    "https://og.codecrafters.io/api/user_profile/", "", ?_⟩
  simp [userPageMeta, userProfileImageUrl]

/-- Witness for the amended C1 at the concrete URL /users/bob. -/
theorem usersRouteMetadata_witness :
    derivePageMeta "https://codecrafters.io/users/bob" noFetch = some (userPageMeta "bob") ∧
    (userPageMeta "bob").pageTitle = some ("bob" ++ "'s CodeCrafters Profile") ∧
    (userPageMeta "bob").pageDescription =
      some ("View " ++ "bob" ++ "'s profile on CodeCrafters") ∧
    ∃ a b : String, (userPageMeta "bob").pageImageUrl = a ++ "bob" ++ b :=
  usersRouteMetadata "https://codecrafters.io/users/bob" "bob" noFetch (by decide)

/-- C2: when the request matches the concepts route and the metadata fetch
succeeds with both fields present, the og:title and og:description meta tags of
the final document carry the returned title and description_markdown, overriding
the slug-derived fallback values. -/
theorem conceptFetchOverridesFallback (url conceptSlug t d : String)
    (f : String → Except String ConceptData)
    (hu : matchCapture usersPathPattern url = none)
    (hc : matchCapture conceptsPathPattern url = some conceptSlug)
    (hf : f conceptSlug = Except.ok ⟨some t, some d⟩) :
    ∃ m : PageMeta, derivePageMeta url f = some m ∧
      firstContent (applyMetaTags emptyHtmlTemplate m) "property" "og:title" = some t ∧
      firstContent (applyMetaTags emptyHtmlTemplate m) "property" "og:description" = some d := by
  refine ⟨⟨conceptImageUrl conceptSlug, some t, some d⟩, ?_, rfl, rfl⟩
  simp [derivePageMeta_concept url conceptSlug f hu hc, hf, conceptPageMeta]

/-- Witness for C2 at the concrete URL /concepts/tcp with a successful fetch. -/
theorem conceptFetchOverridesFallback_witness :
    ∃ m : PageMeta,
      derivePageMeta "/concepts/tcp" (fun _ => Except.ok ⟨some "Custom Title", some "Custom desc"⟩)
        = some m ∧
      firstContent (applyMetaTags emptyHtmlTemplate m) "property" "og:title"
        = some "Custom Title" ∧
      firstContent (applyMetaTags emptyHtmlTemplate m) "property" "og:description"
        = some "Custom desc" :=
  conceptFetchOverridesFallback "/concepts/tcp" "tcp" "Custom Title" "Custom desc"
    (fun _ => Except.ok ⟨some "Custom Title", some "Custom desc"⟩) (by decide) (by decide) rfl

/-- C3: on a concept route whose fetch throws, the fallback title is the
hyphen-split, word-capitalized, space-joined form of the slug — for example
"network-protocols" yields "Network Protocols" and "HTTP-server" yields
"Http Server" — and the fallback description is the string
"View the (fallback title) concept on CodeCrafters" referencing that title. -/
theorem conceptFallbackDerivation (url conceptSlug msg : String)
    (f : String → Except String ConceptData)
    (hu : matchCapture usersPathPattern url = none)
    (hc : matchCapture conceptsPathPattern url = some conceptSlug)
    (hf : f conceptSlug = Except.error msg) :
    (derivePageMeta url f =
      some ⟨conceptImageUrl conceptSlug, some (slugToTitle conceptSlug),
            some ("View the " ++ slugToTitle conceptSlug ++ " concept on CodeCrafters")⟩) ∧
    slugToTitle "network-protocols" = "Network Protocols" ∧
    slugToTitle "HTTP-server" = "Http Server" := by
  refine ⟨?_, by decide, by decide⟩
  simp [derivePageMeta_concept url conceptSlug f hu hc, hf, conceptPageMeta,
    conceptFallbackMeta, conceptFallbackDescription]

/-- Witness for C3 at the concrete URL /concepts/network-protocols with a
failing fetch. -/
theorem conceptFallbackDerivation_witness :
    (derivePageMeta "/concepts/network-protocols" noFetch =
      some ⟨conceptImageUrl "network-protocols", some (slugToTitle "network-protocols"),
            some ("View the " ++ slugToTitle "network-protocols" ++ " concept on CodeCrafters")⟩) ∧
    slugToTitle "network-protocols" = "Network Protocols" ∧
    slugToTitle "HTTP-server" = "Http Server" :=
  conceptFallbackDerivation "/concepts/network-protocols" "network-protocols" "network error"
    noFetch (by decide) (by decide) rfl

/-- C4: when neither regex matches the request URL, the middleware logs exactly
one error naming the URL, produces no response of its own, and passes the
original request unchanged down the handler chain; being a total function it
throws nothing. -/
theorem unmatchedPassThrough (url : String) (f : String → Except String ConceptData)
    (tpl : List Node)
    (hu : matchCapture usersPathPattern url = none)
    (hc : matchCapture conceptsPathPattern url = none) :
    middleware url f tpl = (MiddlewareResult.passThrough url, [unparseableLog url]) ∧
    isRewrite (middleware url f tpl).1 = false := by
  have h1 := middleware_unmatched url f tpl hu hc
  exact ⟨h1, by simp [h1, isRewrite]⟩

/-- Witness for C4 at the concrete URL /about. -/
theorem unmatchedPassThrough_witness :
    middleware "/about" noFetch emptyHtmlTemplate =
      (MiddlewareResult.passThrough "/about", [unparseableLog "/about"]) ∧
    isRewrite (middleware "/about" noFetch emptyHtmlTemplate).1 = false :=
  unmatchedPassThrough "/about" noFetch emptyHtmlTemplate (by decide) (by decide)

/-- C5: on a concept route whose fetch or parse throws, the middleware logs the
error and a notice, swallows it, uses the slug-derived fallback title and
description in the rewritten tags, and still serves an HTML response. -/
theorem conceptFetchFailureFallback (url conceptSlug msg : String)
    (f : String → Except String ConceptData)
    (hu : matchCapture usersPathPattern url = none)
    (hc : matchCapture conceptsPathPattern url = some conceptSlug)
    (hf : f conceptSlug = Except.error msg) :
    middleware url f emptyHtmlTemplate =
      (serveHtml emptyHtmlTemplate (conceptFallbackMeta conceptSlug),
       [(LogLevel.error, msg), (LogLevel.info, "ignoring error for now")]) ∧
    isRewrite (serveHtml emptyHtmlTemplate (conceptFallbackMeta conceptSlug)) = true ∧
    firstContent (applyMetaTags emptyHtmlTemplate (conceptFallbackMeta conceptSlug))
      "property" "og:title" = some (slugToTitle conceptSlug) ∧
    firstContent (applyMetaTags emptyHtmlTemplate (conceptFallbackMeta conceptSlug))
      "property" "og:description" = some (conceptFallbackDescription conceptSlug) := by
  refine ⟨?_, rfl, rfl, rfl⟩
  simp [middleware_concept url conceptSlug f emptyHtmlTemplate hu hc, hf,
    conceptPageMeta, conceptLogs]

/-- Witness for C5 at the concrete URL /concepts/git-internals with a failing
fetch. -/
theorem conceptFetchFailureFallback_witness :
    middleware "/concepts/git-internals" noFetch emptyHtmlTemplate =
      (serveHtml emptyHtmlTemplate (conceptFallbackMeta "git-internals"),
       [(LogLevel.error, "network error"), (LogLevel.info, "ignoring error for now")]) ∧
    isRewrite (serveHtml emptyHtmlTemplate (conceptFallbackMeta "git-internals")) = true ∧
    firstContent (applyMetaTags emptyHtmlTemplate (conceptFallbackMeta "git-internals"))
      "property" "og:title" = some (slugToTitle "git-internals") ∧
    firstContent (applyMetaTags emptyHtmlTemplate (conceptFallbackMeta "git-internals"))
      "property" "og:description" = some (conceptFallbackDescription "git-internals") :=
  conceptFetchFailureFallback "/concepts/git-internals" "git-internals" "network error"
    noFetch (by decide) (by decide) rfl

/-- C6 fails as stated: the regexes are tested against the whole request URL,
not its path, so of two URLs with the same path — differing only in the query
string — one is passed through and the other is rewritten. -/
theorem triggerDependsOnQuery :
    queryStripped "https://app.codecrafters.io/about" =
      queryStripped "https://app.codecrafters.io/about?next=/users/alice" ∧
    (middleware "https://app.codecrafters.io/about" noFetch emptyHtmlTemplate).1 =
      MiddlewareResult.passThrough "https://app.codecrafters.io/about" ∧
    isRewrite (middleware "https://app.codecrafters.io/about?next=/users/alice" noFetch
      emptyHtmlTemplate).1 = true :=
  ⟨by decide, by decide, by decide⟩

/-- C6 (amended): the middleware rewrites exactly when the full request URL —
anywhere in it, the query string included — contains /users/ or /concepts/
followed by at least one character other than a slash and a question mark. -/
theorem triggerCondition (url : String) (f : String → Except String ConceptData)
    (tpl : List Node) :
    isRewrite (middleware url f tpl).1 =
      ((matchCapture usersPathPattern url).isSome ||
        (matchCapture conceptsPathPattern url).isSome) := by
  cases hu : matchCapture usersPathPattern url with
  | some username =>
    simp [middleware_users url username f tpl hu, isRewrite, serveHtml]
  | none =>
    cases hc : matchCapture conceptsPathPattern url with
    | none => simp [middleware_unmatched url f tpl hu hc, isRewrite]
    | some conceptSlug =>
      simp [middleware_concept url conceptSlug f tpl hu hc, isRewrite, serveHtml]

/-- C7: whatever metadata a successful invocation derives, the seven targeted
meta tags of the template all receive the derived values, and every other node
of the template — the surrounding markup, the charset tag and the viewport tag —
is left exactly unchanged, attribute order included. -/
theorem allSevenTagsRewritten (m : PageMeta) :
    applyMetaTags emptyHtmlTemplate m =
      [.text "<!DOCTYPE html><html><head><title>CodeCrafters</title>",
       .meta [("charset", "utf-8")],
       .meta [("name", "description"), ("content", contentString m.pageDescription)],
       .meta [("property", "og:title"), ("content", contentString m.pageTitle)],
       .meta [("content", contentString m.pageDescription), ("property", "og:description")],
       .meta [("property", "og:image"), ("content", m.pageImageUrl)],
       .meta [("name", "twitter:title"), ("content", contentString m.pageTitle)],
       .meta [("content", contentString m.pageDescription), ("name", "twitter:description")],
       .meta [("name", "twitter:image"), ("content", m.pageImageUrl)],
       .meta [("name", "viewport"), ("content", "width=device-width")],
       .text "</head><body></body></html>"] := rfl

/-- C8: every matched request is answered with status 200, a text/html
Content-Type and the fully substituted template as body; and whenever the
middleware produces a response at all, its status is 200 and its content type
is text/html. -/
theorem responseContract (url : String) (f : String → Except String ConceptData)
    (tpl : List Node) :
    ((matchCapture usersPathPattern url).isSome ∨
        (matchCapture conceptsPathPattern url).isSome →
      ∃ m : PageMeta, derivePageMeta url f = some m ∧
        (middleware url f tpl).1 =
          MiddlewareResult.response 200 "text/html" (render (applyMetaTags tpl m))) ∧
    (∀ s ct b, (middleware url f tpl).1 = MiddlewareResult.response s ct b →
      s = 200 ∧ ct = "text/html") := by
  constructor
  · intro h
    cases hu : matchCapture usersPathPattern url with
    | some username =>
      exact ⟨userPageMeta username, derivePageMeta_users url username f hu,
        congrArg Prod.fst (middleware_users url username f tpl hu)⟩
    | none =>
      cases hc : matchCapture conceptsPathPattern url with
      | none =>
        rw [hu, hc] at h
        simp at h
      | some conceptSlug =>
        exact ⟨conceptPageMeta conceptSlug (f conceptSlug),
          derivePageMeta_concept url conceptSlug f hu hc,
          congrArg Prod.fst (middleware_concept url conceptSlug f tpl hu hc)⟩
  · intro s ct b hb
    cases hu : matchCapture usersPathPattern url with
    | some username =>
      rw [middleware_users url username f tpl hu] at hb
      have hb2 : MiddlewareResult.response 200 "text/html"
          (render (applyMetaTags tpl (userPageMeta username))) =
          MiddlewareResult.response s ct b := hb
      injection hb2 with h1 h2 h3
      exact ⟨h1.symm, h2.symm⟩
    | none =>
      cases hc : matchCapture conceptsPathPattern url with
      | none =>
        rw [middleware_unmatched url f tpl hu hc] at hb
        exact absurd hb (by simp)
      | some conceptSlug =>
        rw [middleware_concept url conceptSlug f tpl hu hc] at hb
        have hb2 : MiddlewareResult.response 200 "text/html"
            (render (applyMetaTags tpl (conceptPageMeta conceptSlug (f conceptSlug)))) =
            MiddlewareResult.response s ct b := hb
        injection hb2 with h1 h2 h3
        exact ⟨h1.symm, h2.symm⟩

/-- Witness for C8 at the concrete URL /users/zoe. -/
theorem responseContract_witness :
    ∃ m : PageMeta, derivePageMeta "/users/zoe" noFetch = some m ∧
      (middleware "/users/zoe" noFetch emptyHtmlTemplate).1 =
        MiddlewareResult.response 200 "text/html"
          (render (applyMetaTags emptyHtmlTemplate m)) :=
  (responseContract "/users/zoe" noFetch emptyHtmlTemplate).1 (Or.inl (by decide))

/-- C9 fails as stated: for the attribute name "content" the substitution
rewrites the very attribute it selects by, so the rewritten tag no longer
matches and a second application targets a different tag, changing the
document again. -/
theorem substitutionNotIdempotentForContentSelector :
    replaceMetaTag (replaceMetaTag
        [Node.meta [("content", "x")], Node.meta [("content", "x")]] "content" "x" "y")
      "content" "x" "y" ≠
    replaceMetaTag [Node.meta [("content", "x")], Node.meta [("content", "x")]]
      "content" "x" "y" := by
  decide

/-- C9 (amended): the per-tag substitution is idempotent for every document and
every triple whose attribute name is not "content" — in particular for the seven
selectors the middleware uses, whose attribute names are "name" and "property":
applying the same triple twice yields the same document as applying it once. -/
theorem substitutionIdempotent (doc : List Node) (attrName attrValue content : String)
    (h : attrName ≠ "content") :
    replaceMetaTag (replaceMetaTag doc attrName attrValue content) attrName attrValue content =
      replaceMetaTag doc attrName attrValue content := by
  induction doc with
  | nil => rfl
  | cons n ns ih =>
    by_cases hm : n.matchesSelector attrName attrValue = true
    · simp [replaceMetaTag, hm, matchesSelector_setContent n content attrName attrValue h,
        setContent_setContent]
    · simp [replaceMetaTag, hm, ih]

/-- Witness for the amended C9 on a concrete document and the description
selector. -/
theorem substitutionIdempotent_witness :
    replaceMetaTag (replaceMetaTag
        [Node.meta [("name", "description"), ("content", "a")]] "name" "description" "b")
      "name" "description" "b" =
    replaceMetaTag [Node.meta [("name", "description"), ("content", "a")]]
      "name" "description" "b" :=
  substitutionIdempotent [Node.meta [("name", "description"), ("content", "a")]]
    "name" "description" "b" (by decide)

/-- C10: on a concept route whose fetch and parse succeed, the page title and
description are taken from the returned object unconditionally — a missing
title or description_markdown field leaves the undefined value, not the
slug-derived fallback, in the page metadata; the fallback is retained only when
the fetch or parse throws. -/
theorem missingFieldOverwritesFallback (url conceptSlug : String)
    (f : String → Except String ConceptData) (d : ConceptData)
    (hu : matchCapture usersPathPattern url = none)
    (hc : matchCapture conceptsPathPattern url = some conceptSlug)
    (hf : f conceptSlug = Except.ok d) :
    derivePageMeta url f =
      some ⟨conceptImageUrl conceptSlug, d.title, d.description_markdown⟩ := by
  simp [derivePageMeta_concept url conceptSlug f hu hc, hf, conceptPageMeta]

/-- Witness for C10: a successful fetch whose object lacks the title field
yields an undefined page title, not the slug-derived fallback. -/
theorem missingFieldOverwritesFallback_witness :
    derivePageMeta "/concepts/network-protocols"
        (fun _ => Except.ok ⟨none, some "desc"⟩) =
      some ⟨conceptImageUrl "network-protocols", none, some "desc"⟩ :=
  missingFieldOverwritesFallback "/concepts/network-protocols" "network-protocols"
    (fun _ => Except.ok ⟨none, some "desc"⟩) ⟨none, some "desc"⟩
    (by decide) (by decide) rfl

end MetaTagRewriter
